import Mathlib

/-!
Shallow embedding of the ink! ERC-20 contract in `src/erc20/lib.rs`.

Modelling choices:
* `AccountId` is an arbitrary type `α` with decidable equality (the source only
  needs equality and hashing of account ids).
* `Balance` (`u128` in ink!) is modelled as `Nat`; claims about overflow are
  stated with the explicit bound `2 ^ 128`.
* `ink::storage::Mapping` with `get(..).unwrap_or_default()` semantics (absent
  entry reads as zero) is modelled as a total function into `Nat`;
  `Mapping::insert` is `Function.update`, `Mapping::default()` is `fun _ => 0`.
* Each `#[ink(message)]` method mutating `&mut self` and returning
  `Result<(), Error>` is modelled as a pure function from the pre-state (plus
  the caller identity supplied by the host) to the post-state, the list of
  events emitted during the call, and an `Except Error Unit` result.
* `AccountId::default()` (the zero identity used by the constructor event) is
  passed in as an explicit `zero : α` argument.
-/

namespace erc20

/-- The `#[ink(storage)]` struct `Erc20`. -/
structure Erc20 (α : Type) where
  name : String
  symbol : String
  decimals : Nat
  total_supply : Nat
  balances : α → Nat
  allowances : α × α → Nat

/-- The `Transfer` and `Approval` `#[ink(event)]` structs. -/
inductive Event (α : Type) where
  | Transfer (from_ : α) (to_ : α) (value : Nat)
  | Approval (owner : α) (spender : α) (value : Nat)
  deriving DecidableEq

/-- The contract's `Error` enum. -/
inductive Error where
  | InsufficientBalance
  | InsufficientAllowance
  deriving DecidableEq

variable {α : Type} [DecidableEq α]

/-- `pub fn new(name, symbol, decimals, total_supply) -> Self`: the
`#[ink(constructor)]`. `caller` is `Self::env().caller()`, `zero` is
`AccountId::default()`. Returns the constructed state and the emitted events. -/
def Erc20.new (name symbol : String) (decimals : Nat) (total_supply : Nat)
    (caller zero : α) : Erc20 α × List (Event α) :=
  let balances : α → Nat := Function.update (fun _ => 0) caller total_supply
  ({ name := name
     symbol := symbol
     decimals := decimals
     total_supply := total_supply
     balances := balances
     allowances := fun _ => 0 },
   [Event.Transfer zero caller total_supply])

/-- `pub fn balance_of(&self, account) -> Balance` (`None => 0`). -/
def Erc20.balance_of (s : Erc20 α) (account : α) : Nat :=
  s.balances account

/-- `pub fn allowance(&self, owner, spender) -> Balance` (`unwrap_or_default`). -/
def Erc20.allowance (s : Erc20 α) (owner spender : α) : Nat :=
  s.allowances (owner, spender)

/-- `pub fn transfer(&mut self, to, amount) -> Result<()>`. `caller` is
`self.env().caller()` (bound to `from` in the source; `to` is spelled `to_`
here because `to` is reserved). -/
def Erc20.transfer (s : Erc20 α) (caller to_ : α) (amount : Nat) :
    Erc20 α × List (Event α) × Except Error Unit :=
  let from_ : α := caller
  let from_balance := s.balances from_
  if from_balance < amount then
    (s, [], Except.error Error.InsufficientBalance)
  else
    let s := { s with balances := Function.update s.balances from_ (from_balance - amount) }
    let to_balance := s.balances to_
    let s := { s with balances := Function.update s.balances to_ (to_balance + amount) }
    (s, [Event.Transfer from_ to_ amount], Except.ok ())

/-- `pub fn transfer_from(&mut self, from, to, amount) -> Result<()>`. `caller`
is `self.env().caller()`. Note the allowance write-back happens before the
balance check, exactly as in the source. -/
def Erc20.transfer_from (s : Erc20 α) (caller from_ to_ : α) (amount : Nat) :
    Erc20 α × List (Event α) × Except Error Unit :=
  let caller_allowance := s.allowance from_ caller
  if caller_allowance < amount then
    (s, [], Except.error Error.InsufficientAllowance)
  else
    let s := { s with
      allowances := Function.update s.allowances (from_, caller) (caller_allowance - amount) }
    let from_balance := s.balance_of from_
    if from_balance < amount then
      (s, [], Except.error Error.InsufficientBalance)
    else
      let s := { s with balances := Function.update s.balances from_ (from_balance - amount) }
      let to_balance := s.balance_of to_
      let s := { s with balances := Function.update s.balances to_ (to_balance + amount) }
      (s, [Event.Transfer from_ to_ amount], Except.ok ())

/-- `pub fn approve(&mut self, spender, amount) -> Result<()>`. `caller` is
`self.env().caller()` (bound to `owner` in the source). -/
def Erc20.approve (s : Erc20 α) (caller spender : α) (amount : Nat) :
    Erc20 α × List (Event α) × Except Error Unit :=
  let owner : α := caller
  let s := { s with allowances := Function.update s.allowances (owner, spender) amount }
  (s, [Event.Approval owner spender amount], Except.ok ())

/-- One invocation of a mutating message, together with the caller identity the
host supplies for it. -/
inductive Op (α : Type) where
  | transfer (caller to_ : α) (amount : Nat)
  | approve (caller spender : α) (amount : Nat)
  | transfer_from (caller from_ to_ : α) (amount : Nat)

/-- Post-state of executing one message (successful or failed). -/
def step (s : Erc20 α) : Op α → Erc20 α
  | Op.transfer caller to_ amount => (s.transfer caller to_ amount).1
  | Op.approve caller spender amount => (s.approve caller spender amount).1
  | Op.transfer_from caller from_ to_ amount => (s.transfer_from caller from_ to_ amount).1

/-- Post-state of executing a sequence of messages. -/
def run (s : Erc20 α) (ops : List (Op α)) : Erc20 α :=
  ops.foldl step s

/-- The balance table sums to `ts` over some finite support (absent entries are
zero, so "the sum of all balances" is the sum over any support superset). -/
def ConservesSupply (bal : α → Nat) (ts : Nat) : Prop :=
  ∃ supp : Finset α, (∀ a, a ∉ supp → bal a = 0) ∧ ∑ a ∈ supp, bal a = ts

/-- Debiting `from_` and crediting `to_` (the two `Mapping::insert`s shared by
`transfer` and `transfer_from`) does not change the sum of the balance table. -/
lemma sum_update_move (f : α → Nat) (s : Finset α) (from_ to_ : α) (amount : Nat)
    (hf : from_ ∈ s) (ht : to_ ∈ s) (hle : amount ≤ f from_) :
    ∑ a ∈ s, Function.update (Function.update f from_ (f from_ - amount)) to_
      (Function.update f from_ (f from_ - amount) to_ + amount) a = ∑ a ∈ s, f a := by
  rcases eq_or_ne to_ from_ with h | h
  · subst h
    rw [Function.update_same, Function.update_idem, Nat.sub_add_cancel hle,
      Function.update_eq_self]
  · have hfs : from_ ∈ s \ ({to_} : Finset α) := by
      rw [Finset.mem_sdiff, Finset.mem_singleton]
      exact ⟨hf, fun hcon => h hcon.symm⟩
    rw [Finset.sum_update_of_mem ht, Function.update_noteq h,
      Finset.sum_update_of_mem hfs, Finset.sum_eq_add_sum_diff_singleton ht f,
      Finset.sum_eq_add_sum_diff_singleton hfs f]
    omega

/-- The debit/credit pair preserves `ConservesSupply`. -/
lemma conserves_move (f : α → Nat) (ts : Nat) (from_ to_ : α) (amount : Nat)
    (hle : amount ≤ f from_) (h : ConservesSupply f ts) :
    ConservesSupply (Function.update (Function.update f from_ (f from_ - amount)) to_
      (Function.update f from_ (f from_ - amount) to_ + amount)) ts := by
  obtain ⟨supp, hz, hsum⟩ := h
  have hsub : supp ⊆ insert from_ (insert to_ supp) := fun x hx =>
    Finset.mem_insert_of_mem (Finset.mem_insert_of_mem hx)
  refine ⟨insert from_ (insert to_ supp), fun a ha => ?_, ?_⟩
  · simp only [Finset.mem_insert, not_or] at ha
    obtain ⟨ha1, ha2, ha3⟩ := ha
    rw [Function.update_noteq ha2, Function.update_noteq ha1]
    exact hz a ha3
  · rw [sum_update_move f _ from_ to_ amount (Finset.mem_insert_self _ _)
      (Finset.mem_insert_of_mem (Finset.mem_insert_self _ _)) hle,
      ← Finset.sum_subset hsub (fun x _ hx => hz x hx)]
    exact hsum

lemma conserves_step (s : Erc20 α) (op : Op α)
    (h : ConservesSupply s.balances s.total_supply) :
    ConservesSupply (step s op).balances (step s op).total_supply := by
  cases op with
  | transfer caller to_ amount =>
      by_cases hlt : s.balances caller < amount
      · simpa [step, Erc20.transfer, hlt] using h
      · simp only [step, Erc20.transfer, hlt, if_false]
        exact conserves_move _ _ _ _ _ (Nat.not_lt.mp hlt) h
  | approve caller spender amount =>
      simpa [step, Erc20.approve] using h
  | transfer_from caller from_ to_ amount =>
      by_cases h1 : s.allowances (from_, caller) < amount
      · simpa [step, Erc20.transfer_from, Erc20.allowance, h1] using h
      · by_cases h2 : s.balances from_ < amount
        · simpa [step, Erc20.transfer_from, Erc20.allowance, Erc20.balance_of, h1, h2] using h
        · simp only [step, Erc20.transfer_from, Erc20.allowance, Erc20.balance_of, h1, h2,
            if_false]
          exact conserves_move _ _ _ _ _ (Nat.not_lt.mp h2) h

lemma total_supply_step (s : Erc20 α) (op : Op α) :
    (step s op).total_supply = s.total_supply := by
  cases op with
  | transfer caller to_ amount =>
      by_cases hlt : s.balances caller < amount <;> simp [step, Erc20.transfer, hlt]
  | approve caller spender amount =>
      simp [step, Erc20.approve]
  | transfer_from caller from_ to_ amount =>
      by_cases h1 : s.allowances (from_, caller) < amount
      · simp [step, Erc20.transfer_from, Erc20.allowance, h1]
      · by_cases h2 : s.balances from_ < amount <;>
          simp [step, Erc20.transfer_from, Erc20.allowance, Erc20.balance_of, h1, h2]

lemma conserves_run (s : Erc20 α) (ops : List (Op α))
    (h : ConservesSupply s.balances s.total_supply) :
    ConservesSupply (run s ops).balances (run s ops).total_supply := by
  induction ops generalizing s with
  | nil => exact h
  | cons op ops ih => exact ih (step s op) (conserves_step s op h)

lemma total_supply_run (s : Erc20 α) (ops : List (Op α)) :
    (run s ops).total_supply = s.total_supply := by
  induction ops generalizing s with
  | nil => rfl
  | cons op ops ih => rw [run, List.foldl_cons, ← run, ih, total_supply_step]

lemma conserves_new (name symbol : String) (decimals ts : Nat) (caller zero : α) :
    ConservesSupply (Erc20.new name symbol decimals ts caller zero).1.balances ts := by
  refine ⟨{caller}, fun a ha => ?_, ?_⟩
  · rw [Finset.mem_singleton] at ha
    simp [Erc20.new, Function.update_noteq ha]
  · simp [Erc20.new]

lemma balance_le_of_conserves (f : α → Nat) (ts : Nat) (h : ConservesSupply f ts) (a : α) :
    f a ≤ ts := by
  obtain ⟨supp, hz, hsum⟩ := h
  by_cases ha : a ∈ supp
  · exact hsum ▸ Finset.single_le_sum (fun i _ => Nat.zero_le (f i)) ha
  · simp [hz a ha]

lemma pair_le_of_conserves (f : α → Nat) (ts : Nat) (h : ConservesSupply f ts)
    (a b : α) (hab : a ≠ b) : f a + f b ≤ ts := by
  obtain ⟨supp, hz, hsum⟩ := h
  by_cases ha : a ∈ supp
  · by_cases hb : b ∈ supp
    · have hsub : ({a, b} : Finset α) ⊆ supp := by
        intro x hx
        rw [Finset.mem_insert, Finset.mem_singleton] at hx
        rcases hx with rfl | rfl
        exacts [ha, hb]
      have hle : ∑ x ∈ ({a, b} : Finset α), f x ≤ ∑ x ∈ supp, f x :=
        Finset.sum_le_sum_of_subset hsub
      rwa [Finset.sum_pair hab, hsum] at hle
    · have := balance_le_of_conserves f ts ⟨supp, hz, hsum⟩ a
      have hb0 : f b = 0 := hz b hb
      omega
  · have := balance_le_of_conserves f ts ⟨supp, hz, hsum⟩ b
    have ha0 : f a = 0 := hz a ha
    omega

/-- The credited value `to_balance + amount` computed after the debit never
exceeds the conserved total supply. -/
lemma credit_le_of_conserves (f : α → Nat) (ts : Nat) (h : ConservesSupply f ts)
    (from_ to_ : α) (amount : Nat) (hle : amount ≤ f from_) :
    Function.update f from_ (f from_ - amount) to_ + amount ≤ ts := by
  rcases eq_or_ne to_ from_ with rfl | hne
  · rw [Function.update_same]
    have := balance_le_of_conserves f ts h to_
    omega
  · rw [Function.update_noteq hne]
    have := pair_le_of_conserves f ts h to_ from_ hne
    omega

/-!
Concrete sample states over `α := Nat` used by witnesses and counterexamples.
Account `0` plays Alice (the constructing caller), `1` Bob, `2` Eve;
`9` stands for the zero identity `AccountId::default()`.
-/

/-- Freshly constructed ledger: account `0` holds the whole supply `100`. -/
def sample0 : Erc20 Nat := (Erc20.new "Token" "TOK" 18 100 0 9).1

/-- `sample0` after `approve` by `0` of spender `2` for `50`. -/
def sampleA : Erc20 Nat := (sample0.approve 0 2 50).1

/-- `sampleA` after account `0` transfers its entire balance `100` to `1`,
leaving `balance_of 0 = 0` while `allowance 0 2 = 50` is still in place. -/
def sampleDrained : Erc20 Nat := (sampleA.transfer 0 1 100).1

/-- C2: starting from a freshly constructed ledger, after any sequence of
`transfer`, `approve` and `transfer_from` calls (successful or failed), the sum
of all balances equals the fixed `total_supply`, and the stored supply constant
is unchanged. -/
theorem conservation_after_any_run (name symbol : String) (decimals ts : Nat)
    (caller zero : α) (ops : List (Op α)) :
    ConservesSupply (run (Erc20.new name symbol decimals ts caller zero).1 ops).balances ts ∧
    (run (Erc20.new name symbol decimals ts caller zero).1 ops).total_supply = ts := by
  have h0 := conserves_new (α := α) name symbol decimals ts caller zero
  have hts : (Erc20.new name symbol decimals ts caller zero).1.total_supply = ts := rfl
  have h1 := conserves_run (Erc20.new name symbol decimals ts caller zero).1 ops
    (by rw [hts]; exact h0)
  have h2 := total_supply_run (Erc20.new name symbol decimals ts caller zero).1 ops
  rw [h2, hts] at h1
  exact ⟨h1, by rw [h2, hts]⟩

/-- C3: `transfer` returns `InsufficientBalance` exactly when the caller's
balance is strictly below `amount`, and in that case the state is unchanged and
no event is emitted. -/
theorem transfer_insufficient_balance_iff (s : Erc20 α) (caller to_ : α) (amount : Nat) :
    ((s.transfer caller to_ amount).2.2 = Except.error Error.InsufficientBalance ↔
      s.balance_of caller < amount) ∧
    (s.balance_of caller < amount →
      (s.transfer caller to_ amount).1 = s ∧ (s.transfer caller to_ amount).2.1 = []) := by
  by_cases hlt : s.balances caller < amount <;>
    simp [Erc20.transfer, Erc20.balance_of, hlt]

/-- C3 witness: on the fresh ledger, a transfer of `200 > 100` hits the
insufficient-balance path and leaves everything untouched. -/
theorem transfer_insufficient_balance_iff_witness :
    sample0.balance_of 0 < 200 ∧
    ((sample0.transfer 0 1 200).1 = sample0 ∧ (sample0.transfer 0 1 200).2.1 = []) :=
  ⟨by decide, (transfer_insufficient_balance_iff sample0 0 1 200).2 (by decide)⟩

/-- C4: when the caller's balance covers `amount`, `transfer` succeeds, debits
the caller, credits `to`, leaves every other balance unchanged, nets to a no-op
on balance for a self-transfer, and emits the `Transfer` event. -/
theorem transfer_success_effects (s : Erc20 α) (caller to_ : α) (amount : Nat)
    (h : amount ≤ s.balance_of caller) :
    (s.transfer caller to_ amount).2.2 = Except.ok () ∧
    (s.transfer caller to_ amount).2.1 = [Event.Transfer caller to_ amount] ∧
    (to_ ≠ caller →
      (s.transfer caller to_ amount).1.balance_of caller = s.balance_of caller - amount ∧
      (s.transfer caller to_ amount).1.balance_of to_ = s.balance_of to_ + amount) ∧
    (to_ = caller → (s.transfer caller to_ amount).1.balance_of caller = s.balance_of caller) ∧
    (∀ a, a ≠ caller → a ≠ to_ →
      (s.transfer caller to_ amount).1.balance_of a = s.balance_of a) := by
  rw [Erc20.balance_of] at h
  have hlt : ¬ s.balances caller < amount := Nat.not_lt.mpr h
  refine ⟨?_, ?_, fun hne => ⟨?_, ?_⟩, fun heq => ?_, fun a h1 h2 => ?_⟩
  · simp [Erc20.transfer, hlt]
  · simp [Erc20.transfer, hlt]
  · simp [Erc20.transfer, Erc20.balance_of, hlt, Function.update_apply, hne, Ne.symm hne]
  · simp [Erc20.transfer, Erc20.balance_of, hlt, Function.update_apply, hne]
  · subst heq
    simp only [Erc20.transfer, hlt, if_false, Erc20.balance_of, Function.update_same,
      Function.update_apply, if_pos rfl]
    omega
  · simp [Erc20.transfer, Erc20.balance_of, hlt, Function.update_apply, h1, h2]

/-- C4 witness: moving 30 out of 100 from account 0 to account 1. -/
theorem transfer_success_effects_witness :
    30 ≤ sample0.balance_of 0 ∧
    ((sample0.transfer 0 1 30).1.balance_of 0 = sample0.balance_of 0 - 30 ∧
      (sample0.transfer 0 1 30).1.balance_of 1 = sample0.balance_of 1 + 30) :=
  ⟨by decide, (transfer_success_effects sample0 0 1 30 (by decide)).2.2.1 (by decide)⟩

/-- C5: `approve` always succeeds and unconditionally overwrites the
`(caller, spender)` allowance entry with `amount`, regardless of its prior
value; other allowances and all balances are untouched, an `Approval` event is
emitted, and re-approving `100` then `50` leaves the allowance at `50`. -/
theorem approve_overwrites (s : Erc20 α) (caller spender : α) (amount : Nat) :
    (s.approve caller spender amount).2.2 = Except.ok () ∧
    (s.approve caller spender amount).1.allowance caller spender = amount ∧
    (∀ o sp, (o, sp) ≠ (caller, spender) →
      (s.approve caller spender amount).1.allowance o sp = s.allowance o sp) ∧
    (∀ a, (s.approve caller spender amount).1.balance_of a = s.balance_of a) ∧
    (s.approve caller spender amount).2.1 = [Event.Approval caller spender amount] ∧
    ((s.approve caller spender 100).1.approve caller spender 50).1.allowance caller spender
      = 50 := by
  refine ⟨rfl, ?_, fun o sp h => ?_, fun a => rfl, rfl, ?_⟩
  · simp [Erc20.approve, Erc20.allowance]
  · simp [Erc20.approve, Erc20.allowance, Function.update_apply, h]
  · simp [Erc20.approve, Erc20.allowance]

/-- C5 witness: an unrelated allowance entry is untouched by an `approve`. -/
theorem approve_overwrites_witness :
    ((0, 1) : Nat × Nat) ≠ ((0, 2) : Nat × Nat) ∧
    (sample0.approve 0 2 50).1.allowance 0 1 = sample0.allowance 0 1 :=
  ⟨by decide, (approve_overwrites sample0 0 2 50).2.2.1 0 1 (by decide)⟩

/-- C7: `transfer_from` returns `InsufficientAllowance` exactly when the
spender's allowance is strictly below `amount` — regardless of the balance, so
the allowance check precedes the balance check — and in that case the state is
unchanged and no event is emitted. -/
theorem transfer_from_insufficient_allowance (s : Erc20 α) (caller from_ to_ : α)
    (amount : Nat) :
    ((s.transfer_from caller from_ to_ amount).2.2 = Except.error Error.InsufficientAllowance ↔
      s.allowance from_ caller < amount) ∧
    (s.allowance from_ caller < amount →
      (s.transfer_from caller from_ to_ amount).1 = s ∧
      (s.transfer_from caller from_ to_ amount).2.1 = []) := by
  by_cases h1 : s.allowances (from_, caller) < amount
  · simp [Erc20.transfer_from, Erc20.allowance, h1]
  · by_cases h2 : s.balances from_ < amount <;>
      simp [Erc20.transfer_from, Erc20.allowance, Erc20.balance_of, h1, h2]

/-- C7 witness: allowance 50 and balance 0 are both below the requested 60, yet
the reported error is `InsufficientAllowance` (allowance checked first) and
nothing changes. -/
theorem transfer_from_insufficient_allowance_witness :
    sampleDrained.allowance 0 2 < 60 ∧
    sampleDrained.balance_of 0 < 60 ∧
    (sampleDrained.transfer_from 2 0 1 60).2.2 = Except.error Error.InsufficientAllowance ∧
    ((sampleDrained.transfer_from 2 0 1 60).1 = sampleDrained ∧
      (sampleDrained.transfer_from 2 0 1 60).2.1 = []) :=
  ⟨by decide, by decide,
    (transfer_from_insufficient_allowance sampleDrained 2 0 1 60).1.mpr (by decide),
    (transfer_from_insufficient_allowance sampleDrained 2 0 1 60).2 (by decide)⟩

/-- C1 counterexample: in a reachable state with `allowance 0 2 = 50` but
`balance_of 0 = 0`, a delegated transfer of 10 fails with
`InsufficientBalance`, yet the allowance query afterwards answers `40` instead
of the pre-call `50`: the failed call is externally observable. -/
theorem transfer_from_partial_commit_cex :
    (sampleDrained.transfer_from 2 0 1 10).2.2 = Except.error Error.InsufficientBalance ∧
    sampleDrained.allowance 0 2 = 50 ∧
    (sampleDrained.transfer_from 2 0 1 10).1.allowance 0 2 = 40 :=
  ⟨rfl, by decide, by decide⟩

/-- C1 (amended): a failed `transfer_from` emits no event and changes no
balance; on `InsufficientAllowance` the state is fully unchanged, while on
`InsufficientBalance` the `(from, caller)` allowance entry has already been
written back reduced by `amount` (the §4.5 ordering caveat) and every other
allowance entry is unchanged. -/
theorem transfer_from_error_observability (s : Erc20 α) (caller from_ to_ : α)
    (amount : Nat) (e : Error)
    (h : (s.transfer_from caller from_ to_ amount).2.2 = Except.error e) :
    (s.transfer_from caller from_ to_ amount).2.1 = [] ∧
    (∀ a, (s.transfer_from caller from_ to_ amount).1.balance_of a = s.balance_of a) ∧
    (e = Error.InsufficientAllowance → (s.transfer_from caller from_ to_ amount).1 = s) ∧
    (e = Error.InsufficientBalance →
      amount ≤ s.allowance from_ caller ∧ s.balance_of from_ < amount ∧
      (s.transfer_from caller from_ to_ amount).1.allowances =
        Function.update s.allowances (from_, caller) (s.allowance from_ caller - amount)) := by
  by_cases h1 : s.allowances (from_, caller) < amount
  · simp only [Erc20.transfer_from, Erc20.allowance, h1, if_pos] at h ⊢
    rw [Except.error.injEq] at h
    subst h
    simp
  · by_cases h2 : s.balances from_ < amount
    · have he : e = Error.InsufficientBalance := by
        simp only [Erc20.transfer_from, Erc20.allowance, Erc20.balance_of, h1, h2, if_true,
          if_false, ite_true, ite_false, eq_self_iff_true, not_false_iff,
          Except.error.injEq] at h
        exact h.symm
      subst he
      refine ⟨?_, ?_, ?_, fun _ => ⟨Nat.not_lt.mp h1, h2, ?_⟩⟩
      · simp [Erc20.transfer_from, Erc20.allowance, Erc20.balance_of, h1, h2]
      · intro a
        simp [Erc20.transfer_from, Erc20.allowance, Erc20.balance_of, h1, h2]
      · intro hc
        exact absurd hc (by simp)
      · simp [Erc20.transfer_from, Erc20.allowance, Erc20.balance_of, h1, h2]
    · simp [Erc20.transfer_from, Erc20.allowance, Erc20.balance_of, h1, h2] at h

/-- C1 (amended) witness: the failed delegated transfer from the drained
account emits nothing, moves no balance, and leaves exactly the decremented
allowance entry behind. -/
theorem transfer_from_error_observability_witness :
    (sampleDrained.transfer_from 2 0 1 10).2.2 = Except.error Error.InsufficientBalance ∧
    (sampleDrained.transfer_from 2 0 1 10).2.1 = [] ∧
    (10 ≤ sampleDrained.allowance 0 2 ∧ sampleDrained.balance_of 0 < 10 ∧
      (sampleDrained.transfer_from 2 0 1 10).1.allowances =
        Function.update sampleDrained.allowances (0, 2) (sampleDrained.allowance 0 2 - 10)) :=
  ⟨rfl,
    (transfer_from_error_observability sampleDrained 2 0 1 10
      Error.InsufficientBalance rfl).1,
    (transfer_from_error_observability sampleDrained 2 0 1 10
      Error.InsufficientBalance rfl).2.2.2 rfl⟩

/-- C6 counterexample: a delegated self-transfer (`to == from`) with
sufficient allowance and balance succeeds, but `from`'s balance does not
decrease by `amount` — it is unchanged — so the claim's unconditional
"from's balance decreases by amount, to's balance increases by amount" fails
at `to = from = 0`, `amount = 5`. -/
theorem transfer_from_self_transfer_cex :
    5 ≤ sampleA.allowance 0 2 ∧ 5 ≤ sampleA.balance_of 0 ∧
    (sampleA.transfer_from 2 0 0 5).2.2 = Except.ok () ∧
    (sampleA.transfer_from 2 0 0 5).1.balance_of 0 = 100 ∧
    ¬ (sampleA.transfer_from 2 0 0 5).1.balance_of 0 = sampleA.balance_of 0 - 5 :=
  ⟨by decide, by decide, rfl, by decide, by decide⟩

/-- C6 (amended): when `allowance(from, caller) ≥ amount` and
`balance_of(from) ≥ amount`, `transfer_from` succeeds, the allowance is reduced
by exactly `amount` (other entries untouched), the `Transfer` event is emitted,
and — provided `to ≠ from` — `from`'s balance decreases and `to`'s increases by
`amount`, every other balance unchanged; for `to = from` the balance nets to a
no-op. -/
theorem transfer_from_success_effects (s : Erc20 α) (caller from_ to_ : α) (amount : Nat)
    (hal : amount ≤ s.allowance from_ caller) (hbal : amount ≤ s.balance_of from_) :
    (s.transfer_from caller from_ to_ amount).2.2 = Except.ok () ∧
    (s.transfer_from caller from_ to_ amount).1.allowance from_ caller =
      s.allowance from_ caller - amount ∧
    (∀ o sp, (o, sp) ≠ (from_, caller) →
      (s.transfer_from caller from_ to_ amount).1.allowance o sp = s.allowance o sp) ∧
    (to_ ≠ from_ →
      (s.transfer_from caller from_ to_ amount).1.balance_of from_ =
        s.balance_of from_ - amount ∧
      (s.transfer_from caller from_ to_ amount).1.balance_of to_ =
        s.balance_of to_ + amount) ∧
    (to_ = from_ →
      (s.transfer_from caller from_ to_ amount).1.balance_of from_ = s.balance_of from_) ∧
    (∀ a, a ≠ from_ → a ≠ to_ →
      (s.transfer_from caller from_ to_ amount).1.balance_of a = s.balance_of a) ∧
    (s.transfer_from caller from_ to_ amount).2.1 = [Event.Transfer from_ to_ amount] := by
  rw [Erc20.allowance] at hal
  rw [Erc20.balance_of] at hbal
  have h1 : ¬ s.allowances (from_, caller) < amount := Nat.not_lt.mpr hal
  have h2 : ¬ s.balances from_ < amount := Nat.not_lt.mpr hbal
  refine ⟨?_, ?_, fun o sp h => ?_, fun hne => ⟨?_, ?_⟩, fun heq => ?_, fun a ha1 ha2 => ?_, ?_⟩
  · simp [Erc20.transfer_from, Erc20.allowance, Erc20.balance_of, h1, h2]
  · simp [Erc20.transfer_from, Erc20.allowance, Erc20.balance_of, h1, h2]
  · simp [Erc20.transfer_from, Erc20.allowance, Erc20.balance_of, h1, h2,
      Function.update_apply, h]
  · simp [Erc20.transfer_from, Erc20.allowance, Erc20.balance_of, h1, h2,
      Function.update_apply, hne, Ne.symm hne]
  · simp [Erc20.transfer_from, Erc20.allowance, Erc20.balance_of, h1, h2,
      Function.update_apply, hne]
  · subst heq
    simp only [Erc20.transfer_from, Erc20.allowance, Erc20.balance_of, h1, h2, if_false,
      ite_false, Function.update_same, Function.update_apply, if_pos rfl]
    omega
  · simp [Erc20.transfer_from, Erc20.allowance, Erc20.balance_of, h1, h2,
      Function.update_apply, ha1, ha2]
  · simp [Erc20.transfer_from, Erc20.allowance, Erc20.balance_of, h1, h2]

/-- C6 (amended) witness: spender 2 moves 10 of account 0's 100 to account 1,
leaving allowance 40 and the balances shifted. -/
theorem transfer_from_success_effects_witness :
    10 ≤ sampleA.allowance 0 2 ∧ 10 ≤ sampleA.balance_of 0 ∧
    ((sampleA.transfer_from 2 0 1 10).1.balance_of 0 = sampleA.balance_of 0 - 10 ∧
      (sampleA.transfer_from 2 0 1 10).1.balance_of 1 = sampleA.balance_of 1 + 10) :=
  ⟨by decide, by decide,
    (transfer_from_success_effects sampleA 2 0 1 10 (by decide) (by decide)).2.2.2.1
      (by decide)⟩

/-- C9: after construction, the constructing caller holds the whole supply,
every other balance is zero, every allowance is zero, the metadata equals the
constructor arguments, and exactly one `Transfer` event from the zero identity
to the caller is emitted (the constructor's type has no error path). -/
theorem constructor_spec (name symbol : String) (decimals total_supply : Nat)
    (caller zero : α) :
    (Erc20.new name symbol decimals total_supply caller zero).1.balance_of caller
      = total_supply ∧
    (∀ a, a ≠ caller →
      (Erc20.new name symbol decimals total_supply caller zero).1.balance_of a = 0) ∧
    (Erc20.new name symbol decimals total_supply caller zero).1.total_supply = total_supply ∧
    (∀ o sp, (Erc20.new name symbol decimals total_supply caller zero).1.allowance o sp = 0) ∧
    (Erc20.new name symbol decimals total_supply caller zero).1.name = name ∧
    (Erc20.new name symbol decimals total_supply caller zero).1.symbol = symbol ∧
    (Erc20.new name symbol decimals total_supply caller zero).1.decimals = decimals ∧
    (Erc20.new name symbol decimals total_supply caller zero).2 =
      [Event.Transfer zero caller total_supply] := by
  refine ⟨?_, fun a ha => ?_, rfl, fun o sp => rfl, rfl, rfl, rfl, rfl⟩
  · simp [Erc20.new, Erc20.balance_of]
  · simp [Erc20.new, Erc20.balance_of, Function.update_apply, ha]

/-- C9 witness: on the sample construction, a non-caller account reads
balance zero. -/
theorem constructor_spec_witness :
    (1 : Nat) ≠ 0 ∧ (Erc20.new "Token" "TOK" 18 100 (0 : Nat) 9).1.balance_of 1 = 0 :=
  ⟨by decide, (constructor_spec "Token" "TOK" 18 100 (0 : Nat) 9).2.1 1 (by decide)⟩

/-- C10: zero-amount calls always succeed — `transfer(to, 0)` even with a zero
balance and `transfer_from(from, to, 0)` even with zero allowance and zero
balance — every balance and allowance query is unchanged, yet a value-0
`Transfer` event is still emitted. -/
theorem zero_amount_spec (s : Erc20 α) (caller from_ to_ : α) :
    ((s.transfer caller to_ 0).2.2 = Except.ok () ∧
      (∀ a, (s.transfer caller to_ 0).1.balance_of a = s.balance_of a) ∧
      (∀ o sp, (s.transfer caller to_ 0).1.allowance o sp = s.allowance o sp) ∧
      (s.transfer caller to_ 0).2.1 = [Event.Transfer caller to_ 0]) ∧
    ((s.transfer_from caller from_ to_ 0).2.2 = Except.ok () ∧
      (∀ a, (s.transfer_from caller from_ to_ 0).1.balance_of a = s.balance_of a) ∧
      (∀ o sp, (s.transfer_from caller from_ to_ 0).1.allowance o sp = s.allowance o sp) ∧
      (s.transfer_from caller from_ to_ 0).2.1 = [Event.Transfer from_ to_ 0]) := by
  have hb : ¬ s.balances caller < 0 := Nat.not_lt_zero _
  have hb2 : ¬ s.balances from_ < 0 := Nat.not_lt_zero _
  have ha : ¬ s.allowances (from_, caller) < 0 := Nat.not_lt_zero _
  refine ⟨⟨?_, fun a => ?_, fun o sp => rfl, ?_⟩, ⟨?_, fun a => ?_, fun o sp => ?_, ?_⟩⟩
  · simp [Erc20.transfer, hb]
  · simp [Erc20.transfer, Erc20.balance_of, hb, Function.update_apply]
    split_ifs <;> simp_all
  · simp [Erc20.transfer, hb]
  · simp [Erc20.transfer_from, Erc20.allowance, Erc20.balance_of, ha, hb2]
  · simp [Erc20.transfer_from, Erc20.allowance, Erc20.balance_of, ha, hb2,
      Function.update_apply]
    split_ifs <;> simp_all
  · simp [Erc20.transfer_from, Erc20.allowance, Erc20.balance_of, ha, hb2,
      Function.update_apply]
  · simp [Erc20.transfer_from, Erc20.allowance, Erc20.balance_of, ha, hb2]

/-- C8: in any state reachable from construction (with a `u128`-representable
supply), every subtraction the transfer paths perform is covered by its guard
(`InsufficientBalance` / `InsufficientAllowance` checks), and the credit
addition `to_balance + amount` stays strictly below `2 ^ 128`, so no arithmetic
step can wrap. -/
theorem arithmetic_never_wraps (name symbol : String) (decimals ts : Nat)
    (caller0 zero : α) (ops : List (Op α)) (s : Erc20 α)
    (hs : s = run (Erc20.new name symbol decimals ts caller0 zero).1 ops)
    (hts : ts < 2 ^ 128) (caller from_ to_ : α) (amount : Nat) :
    ((s.transfer caller to_ amount).2.2 = Except.ok () →
      amount ≤ s.balances caller ∧
      Function.update s.balances caller (s.balances caller - amount) to_ + amount < 2 ^ 128) ∧
    ((s.transfer_from caller from_ to_ amount).2.2 ≠ Except.error Error.InsufficientAllowance →
      amount ≤ s.allowances (from_, caller)) ∧
    ((s.transfer_from caller from_ to_ amount).2.2 = Except.ok () →
      amount ≤ s.balances from_ ∧
      Function.update s.balances from_ (s.balances from_ - amount) to_ + amount < 2 ^ 128) := by
  have hcons : ConservesSupply s.balances ts := by
    subst hs
    have h1 := conserves_run (Erc20.new name symbol decimals ts caller0 zero).1 ops
      (conserves_new name symbol decimals ts caller0 zero)
    rwa [total_supply_run] at h1
  refine ⟨fun hok => ?_, fun hne => ?_, fun hok => ?_⟩
  · by_cases hlt : s.balances caller < amount
    · simp [Erc20.transfer, hlt] at hok
    · have hle := Nat.not_lt.mp hlt
      exact ⟨hle,
        lt_of_le_of_lt (credit_le_of_conserves s.balances ts hcons caller to_ amount hle) hts⟩
  · by_cases h1 : s.allowances (from_, caller) < amount
    · exact absurd (by simp [Erc20.transfer_from, Erc20.allowance, h1]) hne
    · exact Nat.not_lt.mp h1
  · by_cases h1 : s.allowances (from_, caller) < amount
    · simp [Erc20.transfer_from, Erc20.allowance, h1] at hok
    · by_cases h2 : s.balances from_ < amount
      · simp [Erc20.transfer_from, Erc20.allowance, Erc20.balance_of, h1, h2] at hok
      · have hle := Nat.not_lt.mp h2
        exact ⟨hle,
          lt_of_le_of_lt (credit_le_of_conserves s.balances ts hcons from_ to_ amount hle) hts⟩

/-- C8 witness: on the freshly constructed sample ledger, a successful transfer
of 5 has its subtraction guarded and its credit addition far below `2 ^ 128`. -/
theorem arithmetic_never_wraps_witness :
    (100 : Nat) < 2 ^ 128 ∧
    (5 ≤ sample0.balances 0 ∧
      Function.update sample0.balances 0 (sample0.balances 0 - 5) 1 + 5 < 2 ^ 128) :=
  ⟨by decide,
    (arithmetic_never_wraps "Token" "TOK" 18 100 0 9 [] sample0 rfl (by decide) 0 0 1 5).1
      rfl⟩

end erc20
